import Mathlib

/-!
Verification of the transport-data accessor layer of the abipy repository
(`abipy/eph/rta.py`), together with the lessons-helper variable-database
singleton (`abipy/lessons/lesson_helper_functions.py`) and the benchmark
CLI helper (`abipy/benchmarks/__init__.py`).

The embedding is shallow: netCDF arrays become Lean lists / index functions,
stateful objects become explicit state passing, fallible operations return
`Except` or `Option`, and real arithmetic is carried out over `ℚ` (the
Python code computes with IEEE doubles; all claims under study are exact
index/arithmetic identities, so rationals model them faithfully).
-/

namespace Rta

/-- Modelled from the spec: the Hartree-to-eV unit-conversion constant
`abu.Ha_to_eV` from `abipy.core.abinit_units` (that module is outside the
provided sources).  The exact numeric value is irrelevant to the claims;
only that it is a fixed constant different from 1 matters. -/
def Ha_to_eV : ℚ := 27.21138386

/-- Modelled from the spec: the Boltzmann constant in Hartree/Kelvin,
`abu.kb_HaK` from `abipy.core.abinit_units` (outside the provided
sources); a fixed positive constant. -/
def kb_HaK : ℚ := 8.617343 / 100000 / Ha_to_eV

/-- Modelled from the spec: map a Cartesian axis character to its index,
part of `abu.s2itup` ("Tensor component: a pair of axis indices (i, j)
derived from a two-character label"). -/
def char2idx (c : Char) : Option Nat :=
  if c = 'x' then some 0
  else if c = 'y' then some 1
  else if c = 'z' then some 2
  else none

/-- Modelled from the spec: `abu.s2itup` turns a two-character component
label into the pair of axis indices, e.g. "xy" ↦ (0, 1).  Any other label
fails (`none`). -/
def s2itup (s : String) : Option (Nat × Nat) :=
  match s.toList with
  | [a, b] =>
    match char2idx a, char2idx b with
    | some i, some j => some (i, j)
    | _, _ => none
  | _ => none

/-- The data stored in one RTA.nc container, as read by `RtaReader`.
Dimensions are the declared netCDF dimensions; arrays are modelled as
lists (1-D) or index functions (the 7-axis `mobility` array
`nctkarr_t('mobility',"dp", "edos_nw, three, three, ntemp, two, nsppol, nrta")`,
whose Python/C-order index order is `[irta, spin, eh, itemp, j, i, w]`;
likewise `mobility_mu` with axes `[irta, spin, itemp, j, i, eh]` and
`kptrlatt` as a 3x3 matrix). -/
structure RtaData where
  nrta : Nat
  nsppol : Nat
  ntemp : Nat
  edos_nw : Nat
  kTmesh : List ℚ
  edos_mesh : List ℚ
  transport_mu_e : List ℚ
  vb_max : List ℚ
  cb_min : List ℚ
  mobility : Nat → Nat → Nat → Nat → Nat → Nat → Nat → ℚ
  mobility_mu : Nat → Nat → Nat → Nat → Nat → Nat → ℚ
  kptrlatt : Nat → Nat → ℚ

/-- `RtaReader.read_mobility` (rta.py:532-543): look up `(i, j)` from the
component label, read the raw `edos_mesh` variable (the eV conversion is
commented out in the source), and slice the mobility array at
`[irta, spin, eh, itemp, j, i, :]`.  An unknown component label fails
(`KeyError` in Python), modelled by `none`. -/
def read_mobility (d : RtaData) (eh itemp : Nat) (component : String)
    (spin : Nat) (irta : Nat) : Option (List ℚ × List ℚ) :=
  match s2itup component with
  | none => none
  | some (i, j) =>
    some (d.edos_mesh,
      (List.range d.edos_nw).map (fun w => d.mobility irta spin eh itemp j i w))

/-- `RtaFile.__init__` (rta.py:98): the energy mesh in eV stored on the
file object, `edos_mesh_eV = reader.read_value("edos_mesh") * abu.Ha_to_eV`. -/
def edos_mesh_eV (d : RtaData) : List ℚ :=
  d.edos_mesh.map (fun x => x * Ha_to_eV)

/-- `RtaReader.__init__` (rta.py:480): the temperature mesh in Kelvin,
`tmesh = read_value("kTmesh") / abu.kb_HaK`. -/
def tmesh (d : RtaData) : List ℚ :=
  d.kTmesh.map (fun x => x / kb_HaK)

/-- `RtaFile.ntemp` (rta.py:100-103): the number of temperatures, defined
as the length of `tmesh`. -/
def ntempProp (d : RtaData) : Nat :=
  (tmesh d).length

/-- The piecewise-linear interpolant over a list of (x, y) sample points,
evaluated at `x`, as computed by `scipy.interpolate.interp1d` (default
`kind="linear"`) for in-range queries over an increasing abscissa: find
the first segment whose right endpoint is ≥ x and apply the two-point
linear formula there. -/
def interpPL : List (ℚ × ℚ) → ℚ → ℚ
  | [], _ => 0
  | [(_, y0)], _ => y0
  | (x0, y0) :: (x1, y1) :: rest, x =>
    if x ≤ x1 then y0 + (y1 - y0) * (x - x0) / (x1 - x0)
    else interpPL ((x1, y1) :: rest) x

/-- `scipy.interpolate.interp1d(xs, ys)` followed by evaluation at `x`,
as used by `RtaFile.get_mobility_mu` (rta.py:179-181): with the default
`bounds_error=True`, a query below the first abscissa or above the last
raises `ValueError` ("out of the interpolation range"); otherwise the
piecewise-linear value is returned. -/
def interp1d (xs ys : List ℚ) (x : ℚ) : Except String ℚ :=
  match xs.head?, xs.getLast? with
  | some lo, some hi =>
    if x < lo ∨ hi < x then Except.error "DomainError"
    else Except.ok (interpPL (xs.zip ys) x)
  | _, _ => Except.error "ValueError"

/-- `RtaFile.get_mobility_mu` (rta.py:164-181): when `ef` is omitted it is
read from `transport_mu_e[itemp]`; then the `(emesh, mobility)` slice from
`read_mobility` is interpolated at `ef` via `interp1d`. -/
def get_mobility_mu (d : RtaData) (eh itemp : Nat) (component : String)
    (ef : Option ℚ) (irta : Nat) (spin : Nat) : Except String ℚ :=
  let efv : ℚ :=
    match ef with
    | none => d.transport_mu_e.getD itemp 0
    | some e => e
  match read_mobility d eh itemp component spin irta with
  | none => Except.error "KeyError"
  | some (emesh, mob) => interp1d emesh mob efv

/-- Errors surfaced by the dataset layer (spec §7 taxonomy). -/
inductive RtaError where
  | closed
  | schemaError
  | keyError
  deriving DecidableEq, Repr

/-- Modelled from the spec: an opened Dataset handle.  `RtaFile.close`
(rta.py:449-451) delegates to the reader's `close`, which is inherited
from the netCDF wrapper outside the provided sources; the spec states the
Dataset has two states, Open → Closed, with every read failing with
`ClosedError` once closed. -/
structure Handle where
  data : RtaData
  isOpen : Bool

/-- Modelled from the spec: `close()` performs the one-way
Open → Closed transition (and is idempotent). -/
def Handle.close (h : Handle) : Handle :=
  { data := h.data, isOpen := false }

/-- Modelled from the spec: a dimension read (`read_dimvalue`) on a
handle; fails with `ClosedError` when the handle is closed, with
`SchemaError` when the dimension is absent. -/
def Handle.read_dimvalue (h : Handle) (name : String) : Except RtaError Nat :=
  if h.isOpen = false then Except.error RtaError.closed
  else if name = "nrta" then Except.ok h.data.nrta
  else if name = "nsppol" then Except.ok h.data.nsppol
  else if name = "ntemp" then Except.ok h.data.ntemp
  else if name = "edos_nw" then Except.ok h.data.edos_nw
  else Except.error RtaError.schemaError

/-- Modelled from the spec: an array read (`read_value`) on a handle;
fails with `ClosedError` when the handle is closed, with `SchemaError`
when the variable is absent. -/
def Handle.read_value (h : Handle) (name : String) : Except RtaError (List ℚ) :=
  if h.isOpen = false then Except.error RtaError.closed
  else if name = "kTmesh" then Except.ok h.data.kTmesh
  else if name = "edos_mesh" then Except.ok h.data.edos_mesh
  else if name = "transport_mu_e" then Except.ok h.data.transport_mu_e
  else if name = "vb_max" then Except.ok h.data.vb_max
  else if name = "cb_min" then Except.ok h.data.cb_min
  else Except.error RtaError.schemaError

/-- Modelled from the spec: the derived accessor `read_mobility` routed
through a handle; fails with `ClosedError` when the handle is closed. -/
def Handle.read_mobility_h (h : Handle) (eh itemp : Nat) (component : String)
    (spin irta : Nat) : Except RtaError (List ℚ × List ℚ) :=
  if h.isOpen = false then Except.error RtaError.closed
  else
    match read_mobility h.data eh itemp component spin irta with
    | none => Except.error RtaError.keyError
    | some r => Except.ok r

/-- The comparison used to model Python's stable `list.sort(key=lambda t: t[0])`
in `RtaRobot.plot_mobility_conv` (rta.py:587): compare pairs by first
component. -/
def keyLe (a b : ℚ × ℚ) : Prop := a.1 ≤ b.1

instance : DecidableRel keyLe := fun a b => inferInstanceAs (Decidable (a.1 ≤ b.1))

instance : IsTotal (ℚ × ℚ) keyLe := ⟨fun a b => le_total a.1 b.1⟩

instance : IsTrans (ℚ × ℚ) keyLe := ⟨fun _ _ _ h1 h2 => le_trans h1 h2⟩

/-- `RtaRobot.plot_mobility_conv` (rta.py:577-587), data-collection part:
for each member file append the pair
`(kptrlatt[0,0], mobility_mu[irta=0, spin, itemp, j, i, eh])`, then sort
the pairs ascending by first component.  Python's `list.sort` is a stable
sort, modelled by `List.insertionSort` (stable sorts agree on output). -/
def plot_mobility_conv_res (files : List RtaData) (eh itemp spin i j : Nat) :
    List (ℚ × ℚ) :=
  List.insertionSort keyLe
    (files.map (fun nc => (nc.kptrlatt 0 0, nc.mobility_mu 0 spin itemp j i eh)))

end Rta

namespace Lessons

/-- Modelled from the spec: the process state of
`abipy/lessons/lesson_helper_functions.py`.  `varsDatabase` is the
module-level `__VARS_DATABASE` global (object identity modelled as an
allocation id), `nextId` the next fresh id (counts constructions of
`VariableDatabase`). -/
structure LessonState where
  varsDatabase : Option Nat
  nextId : Nat
  deriving DecidableEq, Repr

/-- `get_abinit_variables` (lesson_helper_functions.py:20-24): if the
global is `None`, construct a `VariableDatabase` and store it; return the
stored database.  The returned id is the identity of the object handed to
the caller. -/
def get_abinit_variables (s : LessonState) : Nat × LessonState :=
  match s.varsDatabase with
  | some db => (db, s)
  | none => (s.nextId, { varsDatabase := some s.nextId, nextId := s.nextId + 1 })

end Lessons

namespace Bench

/-- The CPU-bound fields of the options object produced by the `bench_main`
argument parser (benchmarks/__init__.py:50-51): `--min-ncpus` (default -1)
and `--max-ncpus` (default 206); the code guards `max_ncpus` against
`None`, modelled by `Option`. -/
structure BenchOptions where
  min_ncpus : Int
  max_ncpus : Option Int

/-- `accept_mpi_omp` (benchmarks/__init__.py:89-98), monkey-patched onto
the options object: `tot_ncpus = mpi_procs * omp_threads`; return `False`
when `tot_ncpus < min_ncpus`, `False` when `max_ncpus` is set and
`tot_ncpus > max_ncpus`, else `True`. -/
def accept_mpi_omp (opts : BenchOptions) (mpi_procs omp_threads : Int) : Bool :=
  let tot_ncpus := mpi_procs * omp_threads
  if tot_ncpus < opts.min_ncpus then false
  else
    match opts.max_ncpus with
    | some mx => if mx < tot_ncpus then false else true
    | none => true

end Bench

namespace Rta

/-- A concrete dataset used to instantiate theorems, following the spec
scenario: `nrta = 2`, `ntemp = 3`, temperatures `[100, 200, 300]` K (so
`kTmesh = [100, 200, 300] * kb_HaK`), a two-point energy mesh, and a
mobility array whose entries encode their own index tuple. -/
def dsEx : RtaData :=
  { nrta := 2
    nsppol := 1
    ntemp := 3
    edos_nw := 2
    kTmesh := [100 * kb_HaK, 200 * kb_HaK, 300 * kb_HaK]
    edos_mesh := [0, 1/2]
    transport_mu_e := [1/10, 1/5, 3/10]
    vb_max := [0]
    cb_min := [1/2]
    mobility := fun irta spin eh itemp j i w =>
      ((irta * 1000000 + spin * 100000 + eh * 10000 + itemp * 1000
        + j * 100 + i * 10 + w : Nat) : ℚ)
    mobility_mu := fun irta spin itemp j i eh =>
      ((irta * 100000 + spin * 10000 + itemp * 1000 + j * 100 + i * 10 + eh : Nat) : ℚ)
    kptrlatt := fun a b => if a = b then 9 else 0 }

/-- Claim C1: for every valid tuple, `read_mobility` looks up `(i, j)`
from the two-character component label and returns the mobility slice
indexed exactly as `[irta, spin, eh, itemp, j, i, :]`, whose length equals
the energy-mesh dimension `edos_nw`. -/
theorem read_mobility_indexes_slice (d : RtaData) (eh itemp spin irta : Nat)
    (component : String) (i j : Nat)
    (hc : s2itup component = some (i, j)) :
    read_mobility d eh itemp component spin irta =
      some (d.edos_mesh,
        (List.range d.edos_nw).map (fun w => d.mobility irta spin eh itemp j i w)) ∧
    ∀ p, read_mobility d eh itemp component spin irta = some p →
      p.2.length = d.edos_nw := by
  have h1 : read_mobility d eh itemp component spin irta =
      some (d.edos_mesh,
        (List.range d.edos_nw).map (fun w => d.mobility irta spin eh itemp j i w)) := by
    simp [read_mobility, hc]
  refine ⟨h1, ?_⟩
  intro p hp
  rw [h1] at hp
  obtain rfl := (Option.some.injEq _ _).mp hp
  simp

/-- Witness for C1: the spec scenario, carrier = electron (`eh = 0`),
`itemp = 1`, component "xx", `spin = 0`, `irta = 0` on the concrete
dataset: exactly the stored slice `[0, 0, 0, 1, 0, 0, :]`. -/
theorem read_mobility_indexes_slice_witness :
    read_mobility dsEx 0 1 "xx" 0 0 =
      some (dsEx.edos_mesh,
        (List.range dsEx.edos_nw).map (fun w => dsEx.mobility 0 0 0 1 0 0 w)) ∧
    ∀ p, read_mobility dsEx 0 1 "xx" 0 0 = some p → p.2.length = dsEx.edos_nw :=
  read_mobility_indexes_slice dsEx 0 1 0 0 "xx" 0 0 (by decide)

/-- Counterexample to claim C2: on the concrete dataset the energy mesh
returned by `read_mobility` is NOT the eV-converted mesh the Dataset
exposes as `edos_mesh_eV` (rta.py:540 comments the conversion out, so the
raw stored mesh is returned). -/
theorem read_mobility_mesh_not_eV :
    (read_mobility dsEx 0 0 "xx" 0 0).map Prod.fst ≠ some (edos_mesh_eV dsEx) := by
  intro h
  simp only [read_mobility, s2itup, edos_mesh_eV, dsEx, char2idx] at h
  norm_num [Ha_to_eV] at h

/-- Claim C2 (amended): `read_mobility` returns the stored energy mesh in
its raw units (Hartree), unconverted; the eV mesh is exposed separately by
the Dataset as `edos_mesh_eV`, which equals the stored mesh times the
Hartree-to-eV constant. -/
theorem read_mobility_mesh_raw (d : RtaData) (eh itemp spin irta : Nat)
    (component : String) (i j : Nat)
    (hc : s2itup component = some (i, j)) :
    (read_mobility d eh itemp component spin irta).map Prod.fst = some d.edos_mesh ∧
    edos_mesh_eV d = d.edos_mesh.map (fun x => x * Ha_to_eV) := by
  exact ⟨by simp [read_mobility, hc], rfl⟩

/-- Witness for the amended C2 on the concrete dataset. -/
theorem read_mobility_mesh_raw_witness :
    (read_mobility dsEx 0 0 "xx" 0 0).map Prod.fst = some dsEx.edos_mesh ∧
    edos_mesh_eV dsEx = dsEx.edos_mesh.map (fun x => x * Ha_to_eV) :=
  read_mobility_mesh_raw dsEx 0 0 0 0 "xx" 0 0 (by decide)

/-- Claim C5: with the chemical potential omitted (`none`),
`get_mobility_mu` queries at element `itemp` of the stored
`transport_mu_e` array; with a user-supplied potential it interpolates
`read_mobility`'s slice at that potential. -/
theorem get_mobility_mu_default_ef (d : RtaData) (eh itemp spin irta : Nat)
    (component : String)
    (ht : itemp < d.transport_mu_e.length) :
    get_mobility_mu d eh itemp component none irta spin =
      get_mobility_mu d eh itemp component
        (some (d.transport_mu_e.get ⟨itemp, ht⟩)) irta spin ∧
    ∀ ef emesh mob,
      read_mobility d eh itemp component spin irta = some (emesh, mob) →
      get_mobility_mu d eh itemp component (some ef) irta spin =
        interp1d emesh mob ef := by
  constructor
  · simp only [get_mobility_mu]
    rw [List.getD_eq_getElem d.transport_mu_e 0 ht]
    simp [List.get_eq_getElem]
  · intro ef emesh mob hp
    simp [get_mobility_mu, hp]

/-- Witness for C5 on the concrete dataset at `itemp = 1`. -/
theorem get_mobility_mu_default_ef_witness :
    get_mobility_mu dsEx 0 1 "xx" none 0 0 =
      get_mobility_mu dsEx 0 1 "xx"
        (some (dsEx.transport_mu_e.get ⟨1, by decide⟩)) 0 0 ∧
    ∀ ef emesh mob,
      read_mobility dsEx 0 1 "xx" 0 0 = some (emesh, mob) →
      get_mobility_mu dsEx 0 1 "xx" (some ef) 0 0 = interp1d emesh mob ef :=
  get_mobility_mu_default_ef dsEx 0 1 0 0 "xx" (by decide)

/-- Claim C6: each temperature-mesh element is the stored raw `kTmesh`
value divided by the Boltzmann constant in Hartree/Kelvin, and the mesh
length (also the `ntemp` property) equals the `ntemp` dimension. -/
theorem tmesh_spec (d : RtaData) (h : d.kTmesh.length = d.ntemp) :
    (tmesh d).length = d.ntemp ∧
    ntempProp d = d.ntemp ∧
    ∀ k : Nat, (tmesh d)[k]? = (d.kTmesh[k]?).map (fun x => x / kb_HaK) := by
  refine ⟨by simp [tmesh, h], by simp [ntempProp, tmesh, h], ?_⟩
  intro k
  simp [tmesh]

/-- Witness for C6 on the concrete dataset (`ntemp = 3`,
temperatures `[100, 200, 300]` K). -/
theorem tmesh_spec_witness :
    (tmesh dsEx).length = dsEx.ntemp ∧
    ntempProp dsEx = dsEx.ntemp ∧
    ∀ k : Nat, (tmesh dsEx)[k]? = (dsEx.kTmesh[k]?).map (fun x => x / kb_HaK) :=
  tmesh_spec dsEx (by decide)

/-- Claim C8: closing is a one-way Open → Closed transition, and on the
closed handle every read operation (dimension read, array read, derived
accessor) fails with the closed-dataset error; moreover any handle that is
closed (whether by this `close` or already closed) never serves a read. -/
theorem closed_handle_reads_fail (h : Handle) (dimname valname component : String)
    (eh itemp spin irta : Nat) :
    (Handle.close h).isOpen = false ∧
    Handle.close (Handle.close h) = Handle.close h ∧
    Handle.read_dimvalue (Handle.close h) dimname = Except.error RtaError.closed ∧
    Handle.read_value (Handle.close h) valname = Except.error RtaError.closed ∧
    Handle.read_mobility_h (Handle.close h) eh itemp component spin irta =
      Except.error RtaError.closed ∧
    (h.isOpen = false →
      Handle.read_dimvalue h dimname = Except.error RtaError.closed ∧
      Handle.read_value h valname = Except.error RtaError.closed ∧
      Handle.read_mobility_h h eh itemp component spin irta =
        Except.error RtaError.closed) := by
  refine ⟨rfl, rfl, rfl, rfl, rfl, ?_⟩
  intro hcl
  refine ⟨?_, ?_, ?_⟩ <;>
    simp [Handle.read_dimvalue, Handle.read_value, Handle.read_mobility_h, hcl]

/-- Witness for C8: a concrete closed handle over the example dataset. -/
theorem closed_handle_reads_fail_witness :
    (Handle.close ⟨dsEx, true⟩).isOpen = false ∧
    Handle.close (Handle.close ⟨dsEx, true⟩) = Handle.close ⟨dsEx, true⟩ ∧
    Handle.read_dimvalue (Handle.close ⟨dsEx, true⟩) "nrta" =
      Except.error RtaError.closed ∧
    Handle.read_value (Handle.close ⟨dsEx, true⟩) "kTmesh" =
      Except.error RtaError.closed ∧
    Handle.read_mobility_h (Handle.close ⟨dsEx, true⟩) 0 1 "xx" 0 0 =
      Except.error RtaError.closed ∧
    ((⟨dsEx, true⟩ : Handle).isOpen = false →
      Handle.read_dimvalue ⟨dsEx, true⟩ "nrta" = Except.error RtaError.closed ∧
      Handle.read_value ⟨dsEx, true⟩ "kTmesh" = Except.error RtaError.closed ∧
      Handle.read_mobility_h ⟨dsEx, true⟩ 0 1 "xx" 0 0 =
        Except.error RtaError.closed) :=
  closed_handle_reads_fail ⟨dsEx, true⟩ "nrta" "kTmesh" "xx" 0 1 0 0

/-- Claim C7: the per-member collection in `plot_mobility_conv` applies
the accessor to every member (its output is a permutation of the mapped
pair list), returns the pairs sorted ascending by the sort key, and the
sort is stable: any two pairs with equal keys keep their relative input
order (stated as preservation of two-element sublists). -/
theorem plot_mobility_conv_res_sorted_stable (files : List RtaData)
    (eh itemp spin i j : Nat) :
    List.Sorted keyLe (plot_mobility_conv_res files eh itemp spin i j) ∧
    (plot_mobility_conv_res files eh itemp spin i j).Perm
      (files.map (fun nc => (nc.kptrlatt 0 0, nc.mobility_mu 0 spin itemp j i eh))) ∧
    ∀ a b : ℚ × ℚ, a.1 = b.1 →
      List.Sublist [a, b]
        (files.map (fun nc => (nc.kptrlatt 0 0, nc.mobility_mu 0 spin itemp j i eh))) →
      List.Sublist [a, b] (plot_mobility_conv_res files eh itemp spin i j) := by
  refine ⟨List.sorted_insertionSort keyLe _, List.perm_insertionSort keyLe _, ?_⟩
  intro a b hab hsub
  exact List.pair_sublist_insertionSort (le_of_eq hab) hsub

/-- Witness for C7: two concrete member datasets (the example dataset
twice), equal keys, order preserved. -/
theorem plot_mobility_conv_res_sorted_stable_witness :
    List.Sorted keyLe (plot_mobility_conv_res [dsEx, dsEx] 0 1 0 0 0) ∧
    (plot_mobility_conv_res [dsEx, dsEx] 0 1 0 0 0).Perm
      ([dsEx, dsEx].map (fun nc => (nc.kptrlatt 0 0, nc.mobility_mu 0 0 1 0 0 0))) ∧
    ∀ a b : ℚ × ℚ, a.1 = b.1 →
      List.Sublist [a, b]
        ([dsEx, dsEx].map (fun nc => (nc.kptrlatt 0 0, nc.mobility_mu 0 0 1 0 0 0))) →
      List.Sublist [a, b] (plot_mobility_conv_res [dsEx, dsEx] 0 1 0 0 0) :=
  plot_mobility_conv_res_sorted_stable [dsEx, dsEx] 0 1 0 0 0

/-- A query strictly below every abscissa, or strictly above every
abscissa, of a nonempty sample list makes `interp1d` fail with the
domain error (no value is ever produced). -/
theorem interp1d_out_of_range (xs ys : List ℚ) (x : ℚ) (hne : xs ≠ [])
    (hout : (∀ y ∈ xs, x < y) ∨ (∀ y ∈ xs, y < x)) :
    interp1d xs ys x = Except.error "DomainError" := by
  obtain ⟨m, ms, rfl⟩ := List.exists_cons_of_ne_nil hne
  have hgl : (m :: ms).getLast? = some ((m :: ms).getLast (by simp)) :=
    List.getLast?_eq_getLast _ _
  have hcond : x < m ∨ (m :: ms).getLast (by simp) < x := by
    rcases hout with hall | hall
    · exact Or.inl (hall m (List.mem_cons_self m ms))
    · exact Or.inr (hall _ (List.getLast_mem _))
  simp only [interp1d, List.head?_cons, hgl]
  rw [if_pos hcond]

/-- The piecewise-linear interpolant is exact at its own sample nodes,
for strictly increasing abscissae. -/
theorem interpPL_at_node :
    ∀ (zs : List (ℚ × ℚ)), zs.Pairwise (fun p q => p.1 < q.1) →
    ∀ (k : Nat) (hk : k < zs.length), interpPL zs (zs[k].1) = zs[k].2 := by
  intro zs
  induction zs with
  | nil => intro _ k hk; simp at hk
  | cons p tail ih =>
    intro hs k hk
    obtain ⟨x0, y0⟩ := p
    cases tail with
    | nil =>
      cases k with
      | zero => simp [interpPL]
      | succ n => simp at hk
    | cons q rest =>
      obtain ⟨x1, y1⟩ := q
      have hx01 : x0 < x1 :=
        List.rel_of_pairwise_cons hs (List.mem_cons_self _ _)
      cases k with
      | zero =>
        simp [interpPL, le_of_lt hx01]
      | succ n =>
        cases n with
        | zero =>
          have hd : x1 - x0 ≠ 0 := sub_ne_zero.mpr (ne_of_gt hx01)
          simp only [List.getElem_cons_succ, List.getElem_cons_zero, interpPL,
            le_refl, if_true]
          rw [mul_div_assoc, div_self hd, mul_one]
          ring
        | succ m =>
          have hm : m < rest.length := by
            simpa using hk
          have hx1x : x1 < (rest[m]).1 := by
            refine List.rel_of_pairwise_cons hs.of_cons ?_
            exact List.getElem_mem hm
          have hnle : ¬ ((rest[m]).1 ≤ x1) := not_le.mpr hx1x
          have hk2 : m + 1 < ((x1, y1) :: rest).length := by
            simpa using hm
          have ihres := ih hs.of_cons (m + 1) hk2
          simp only [List.getElem_cons_succ] at ihres ⊢
          rw [interpPL, if_neg hnle]
          exact ihres

/-- `interp1d` evaluated exactly at the `k`-th sample abscissa returns the
`k`-th sample ordinate, for a strictly increasing abscissa list and an
ordinate list of matching length. -/
theorem interp1d_at_node (xs ys : List ℚ) (hs : xs.Pairwise (· < ·))
    (hlen : ys.length = xs.length) (k : Nat) (hk : k < xs.length) :
    interp1d xs ys (xs[k]) = Except.ok (ys.get ⟨k, by omega⟩) := by
  have h0 : 0 < xs.length := by omega
  have hlast : xs.length - 1 < xs.length := by omega
  have mono : ∀ (a b : Nat) (ha : a < xs.length) (hb : b < xs.length),
      a < b → xs[a] < xs[b] := by
    intro a b ha hb hab
    have := List.pairwise_iff_get.mp hs ⟨a, ha⟩ ⟨b, hb⟩ hab
    simpa [List.get_eq_getElem] using this
  have hlo : xs[0] ≤ xs[k] := by
    rcases Nat.eq_zero_or_pos k with hk0 | hk0
    · subst hk0; exact le_refl _
    · exact le_of_lt (mono 0 k h0 hk hk0)
  have hhi : xs[k] ≤ xs[xs.length - 1] := by
    rcases Nat.lt_or_ge k (xs.length - 1) with hlt | hge
    · exact le_of_lt (mono k (xs.length - 1) hk hlast hlt)
    · have : k = xs.length - 1 := by omega
      subst this; exact le_refl _
  have hhead : xs.head? = some (xs[0]) := by
    rw [List.head?_eq_getElem?]
    exact List.getElem?_eq_getElem h0
  have hgl : xs.getLast? = some (xs[xs.length - 1]) := by
    rw [List.getLast?_eq_getElem?]
    exact List.getElem?_eq_getElem hlast
  have hcond : ¬ (xs[k] < xs[0] ∨ xs[xs.length - 1] < xs[k]) := by
    push_neg
    exact ⟨hlo, hhi⟩
  have hkz : k < (xs.zip ys).length := by
    rw [List.length_zip]; omega
  have hzp : (xs.zip ys).Pairwise (fun p q => p.1 < q.1) := by
    have hmapfst : (xs.zip ys).map Prod.fst = xs := List.map_fst_zip xs ys (by omega)
    have hx : ((xs.zip ys).map Prod.fst).Pairwise (· < ·) := by rw [hmapfst]; exact hs
    rw [List.pairwise_map] at hx
    exact hx
  have hnode := interpPL_at_node (xs.zip ys) hzp k hkz
  have hget : (xs.zip ys)[k] = (xs[k], ys.get ⟨k, by omega⟩) := List.getElem_zip
  rw [hget] at hnode
  simp only [interp1d, hhead, hgl]
  rw [if_neg hcond, hnode]

/-- Claim C3: for every valid index tuple, `get_mobility_mu` queried at a
chemical potential strictly outside the closed interval spanned by the
energy mesh (strictly below every mesh point or strictly above every mesh
point) fails with the domain error and never returns a finite value. -/
theorem get_mobility_mu_out_of_range (d : RtaData) (eh itemp spin irta : Nat)
    (component : String) (i j : Nat) (ef : ℚ)
    (hc : s2itup component = some (i, j))
    (hne : d.edos_mesh ≠ [])
    (hout : (∀ y ∈ d.edos_mesh, ef < y) ∨ (∀ y ∈ d.edos_mesh, y < ef)) :
    get_mobility_mu d eh itemp component (some ef) irta spin =
      Except.error "DomainError" := by
  simp only [get_mobility_mu, read_mobility, hc]
  exact interp1d_out_of_range _ _ _ hne hout

/-- Witness for C3: the concrete dataset with mesh `[0, 1/2]` queried at
`ef = 2`, strictly above the mesh maximum. -/
theorem get_mobility_mu_out_of_range_witness :
    get_mobility_mu dsEx 0 1 "xx" (some 2) 0 0 = Except.error "DomainError" :=
  get_mobility_mu_out_of_range dsEx 0 1 0 0 "xx" 0 0 2 (by decide) (by decide)
    (Or.inr (by norm_num [dsEx]))

/-- Claim C4: for every valid index tuple, `get_mobility_mu` queried
exactly at the `k`-th energy-mesh sample point returns exactly the `k`-th
value of the mobility slice produced by `read_mobility` (the interpolant
is exact at sample points). -/
theorem get_mobility_mu_exact_at_node (d : RtaData)
    (eh itemp spin irta k : Nat) (component : String) (i j : Nat)
    (hc : s2itup component = some (i, j))
    (hsort : d.edos_mesh.Pairwise (· < ·))
    (hlen : d.edos_mesh.length = d.edos_nw)
    (hk : k < d.edos_mesh.length) :
    get_mobility_mu d eh itemp component (some (d.edos_mesh[k])) irta spin =
      Except.ok (d.mobility irta spin eh itemp j i k) := by
  simp only [get_mobility_mu, read_mobility, hc]
  have hlen2 :
      ((List.range d.edos_nw).map
        (fun w => d.mobility irta spin eh itemp j i w)).length =
      d.edos_mesh.length := by
    simp [hlen]
  rw [interp1d_at_node d.edos_mesh _ hsort hlen2 k hk]
  congr 1
  rw [List.get_eq_getElem, List.getElem_map]
  congr 1
  exact List.getElem_range _ _

/-- Witness for C4: the concrete dataset queried at mesh node `k = 1`
(energy `1/2`), returning the stored slice value at index 1. -/
theorem get_mobility_mu_exact_at_node_witness :
    get_mobility_mu dsEx 0 1 "xx" (some (dsEx.edos_mesh.get ⟨1, by decide⟩)) 0 0 =
      Except.ok (dsEx.mobility 0 0 0 1 0 0 1) :=
  get_mobility_mu_exact_at_node dsEx 0 1 0 0 1 "xx" 0 0 (by decide)
    (by norm_num [dsEx, List.pairwise_cons]) (by decide) (by decide)

end Rta

namespace Lessons

/-- Claim C9: `get_abinit_variables` is a lazily initialized process-wide
singleton: calling it again on the post-call state returns the same object
and the same state (no new construction), the post-call state stores the
returned object, a first call on an empty state constructs exactly one
database (advancing the allocation counter once), and a call on a state
that already holds a database returns it unchanged. -/
theorem get_abinit_variables_singleton (s : LessonState) :
    get_abinit_variables (get_abinit_variables s).2 = get_abinit_variables s ∧
    ((get_abinit_variables s).2).varsDatabase = some (get_abinit_variables s).1 ∧
    (s.varsDatabase = none →
      get_abinit_variables s =
        (s.nextId, { varsDatabase := some s.nextId, nextId := s.nextId + 1 })) ∧
    (∀ db, s.varsDatabase = some db → get_abinit_variables s = (db, s)) := by
  rcases hs : s.varsDatabase with _ | db
  · refine ⟨?_, ?_, ?_, ?_⟩ <;> simp [get_abinit_variables, hs]
  · refine ⟨?_, ?_, ?_, ?_⟩ <;> simp [get_abinit_variables, hs]

/-- Witness for C9: the fresh process state (no database yet, counter 0). -/
theorem get_abinit_variables_singleton_witness :
    get_abinit_variables (get_abinit_variables ⟨none, 0⟩).2 =
      get_abinit_variables ⟨none, 0⟩ ∧
    ((get_abinit_variables ⟨none, 0⟩).2).varsDatabase =
      some (get_abinit_variables ⟨none, 0⟩).1 ∧
    ((⟨none, 0⟩ : LessonState).varsDatabase = none →
      get_abinit_variables ⟨none, 0⟩ =
        ((⟨none, 0⟩ : LessonState).nextId,
          { varsDatabase := some (⟨none, 0⟩ : LessonState).nextId,
            nextId := (⟨none, 0⟩ : LessonState).nextId + 1 })) ∧
    (∀ db, (⟨none, 0⟩ : LessonState).varsDatabase = some db →
      get_abinit_variables ⟨none, 0⟩ = (db, ⟨none, 0⟩)) :=
  get_abinit_variables_singleton ⟨none, 0⟩

end Lessons

namespace Bench

/-- Claim C10: the patched `accept_mpi_omp` returns `True` exactly when
`mpi_procs * omp_threads` is at least `min_ncpus` and, when `max_ncpus`
is set, at most `max_ncpus`; it returns `False` exactly when one of the
two CPU-count bounds is violated. -/
theorem accept_mpi_omp_iff (opts : BenchOptions) (mpi_procs omp_threads : Int)
    (h1 : 0 < mpi_procs) (h2 : 0 < omp_threads) :
    (accept_mpi_omp opts mpi_procs omp_threads = true ↔
      (opts.min_ncpus ≤ mpi_procs * omp_threads ∧
        ∀ mx, opts.max_ncpus = some mx → mpi_procs * omp_threads ≤ mx)) ∧
    (accept_mpi_omp opts mpi_procs omp_threads = false ↔
      (mpi_procs * omp_threads < opts.min_ncpus ∨
        ∃ mx, opts.max_ncpus = some mx ∧ mx < mpi_procs * omp_threads)) := by
  by_cases hlt : mpi_procs * omp_threads < opts.min_ncpus
  · rcases hm : opts.max_ncpus with _ | mx <;>
      simp [accept_mpi_omp, hlt, hm] <;> omega
  · rcases hm : opts.max_ncpus with _ | mx
    · simp [accept_mpi_omp, hlt, hm]
      omega
    · by_cases hgt : mx < mpi_procs * omp_threads
      · simp [accept_mpi_omp, hlt, hm, hgt]
        try omega
      · simp [accept_mpi_omp, hlt, hm, hgt]
        try omega

/-- Witness for C10: `min_ncpus = 2`, `max_ncpus = 4`, `mpi_procs = 3`,
`omp_threads = 1`. -/
theorem accept_mpi_omp_iff_witness :
    (accept_mpi_omp ⟨2, some 4⟩ 3 1 = true ↔
      ((2 : Int) ≤ 3 * 1 ∧ ∀ mx, (some 4 : Option Int) = some mx → 3 * 1 ≤ mx)) ∧
    (accept_mpi_omp ⟨2, some 4⟩ 3 1 = false ↔
      ((3 : Int) * 1 < 2 ∨
        ∃ mx, (some 4 : Option Int) = some mx ∧ mx < 3 * 1)) :=
  accept_mpi_omp_iff ⟨2, some 4⟩ 3 1 (by decide) (by decide)

end Bench
